import Mathlib

/-!
Verification development for `OrganizeMedia.py`, a one-shot CLI tool that
sorts photo and video files into date-derived subdirectories.

The Python source is shallowly embedded below:
* pure helpers (`find_media_in_dir`, `generate_date_dir`, `add_record`,
  `pp_transactions`) become Lean functions over lists and strings;
* the stateful processing loops (`img_copy_n_sort`, `video_copy_n_sort`)
  become recursive functions that thread the transaction map explicitly and
  emit an event trace (directory creation, file move, record append, log
  line) in program order;
* fallible steps return `Except StepErr`, where `StepErr.exit` models
  `sys.exit(code)` after printing a message and `StepErr.uncaught` models an
  uncaught Python exception that aborts the run.

Python string operations are modelled on Lean `String` by structurally
recursive char-list functions (`py_split`, `py_split_ws`, `py_lower`), so
that every definition evaluates inside the kernel; string comparison is
the code-point lexicographic order, matching Python.
-/

/-- Constant `DEFAULT_DEST` from the source: the default bucket directory
name for files with no usable timestamp metadata. -/
def DEFAULT_DEST : String := "Timestamp_Unavailable"

/-- Photo extensions recognised by `find_media_in_dir` (`photo_types`). -/
def photo_types : List String := ["jpg", "png"]

/-- Video extensions recognised by `find_media_in_dir` (`video_types`). -/
def video_types : List String := ["mp4"]

/-- Split of a character list at every character satisfying `p`, keeping
empty pieces, as Python `str.split(sep)` does for a one-character `sep`.
The result is never empty. -/
def splitOnPred (p : Char → Bool) : List Char → List (List Char)
  | [] => [[]]
  | c :: rest =>
    match splitOnPred p rest with
    | [] => [[]]
    | piece :: pieces =>
      if p c then [] :: piece :: pieces else (c :: piece) :: pieces

/-- Python `s.split(sep)` for a one-character separator: every occurrence
of `sep` splits, empty pieces are kept, and `''.split(sep)` is `['']`. -/
def py_split (s : String) (sep : Char) : List String :=
  (splitOnPred (fun c => c = sep) s.data).map String.mk

/-- Python `s.split()` with no separator: split on runs of whitespace and
drop the empty pieces. -/
def py_split_ws (s : String) : List String :=
  ((splitOnPred (fun c => c = ' ' || c = '\t' || c = '\n' || c = '\r') s.data).filter
    (fun piece => piece ≠ [])).map String.mk

/-- Python `s.lower()` restricted to what the claims need: lowercase every
character. -/
def py_lower (s : String) : String :=
  String.mk (s.data.map Char.toLower)

/-- The token the classifier inspects: `file_name.split('.')[-1]`.
`py_split` never returns `[]`, so `getLastD` is exact. -/
def ext_token (file_name : String) : String :=
  (py_split file_name '.').getLastD ""

/-- Embedding of `find_media_in_dir` (lines 12-27): split each filename on
`.`, the last token selects the photo list, the video list, or neither;
both output lists keep input order. -/
def find_media_in_dir : List String → List String × List String
  | [] => ([], [])
  | file_name :: files =>
    let rest := find_media_in_dir files
    if ext_token file_name ∈ photo_types then
      (file_name :: rest.1, rest.2)
    else if ext_token file_name ∈ video_types then
      (rest.1, file_name :: rest.2)
    else
      rest

/-- Embedding of `create_dir` (lines 30-33) on a filesystem modelled as the
list of existing directory paths: create the directory only when it does
not already exist. -/
def create_dir (fs : List String) (filepath : String) : List String :=
  if filepath ∈ fs then fs else fs ++ [filepath]

/-- Outcome of a failing step: `exit code msg` models `sys.exit(code)`
after printing `msg`; `uncaught msg` models an uncaught Python exception
(the interpreter aborts the run with a traceback). -/
inductive StepErr : Type where
  | exit (code : Nat) (msg : String)
  | uncaught (msg : String)
deriving DecidableEq, Repr

/-- Embedding of `generate_date_dir` (lines 59-75): the four recognised
layout strings produce a concatenated path; anything else prints
`Invalid dir_layout provided` and calls `sys.exit(1)`. -/
def generate_date_dir (source_dir year month dir_layout : String) :
    Except StepErr String :=
  if dir_layout = "month" then .ok (source_dir ++ month)
  else if dir_layout = "year" then .ok (source_dir ++ year)
  else if dir_layout = "year_month" then .ok (source_dir ++ year ++ "_" ++ month)
  else if dir_layout = "year/month" then .ok (source_dir ++ year ++ "/" ++ month)
  else .error (.exit 1 "Invalid dir_layout provided")

/-- Per-file destination logic shared by `img_copy_n_sort` (lines 110-134)
and `video_copy_n_sort` (lines 78-103): both initialise
`default_dir = f'\x7bsource_dir\x7d\x7bDEFAULT_DEST\x7d'` and use it when no
(year, month) pair was extracted, and call `generate_date_dir` otherwise.
`none` is the Absent capture date. -/
def destination_resolver (source_dir : String)
    (capture_date : Option (String × String)) (dir_layout : String) :
    Except StepErr String :=
  match capture_date with
  | none => .ok (source_dir ++ DEFAULT_DEST)
  | some (y, m) => generate_date_dir source_dir y m dir_layout

instance {e a : Type} [DecidableEq e] [DecidableEq a] :
    DecidableEq (Except e a) := fun x y =>
  match x, y with
  | .ok u, .ok v =>
    if h : u = v then isTrue (by rw [h])
    else isFalse (fun c => h (Except.ok.inj c))
  | .error u, .error v =>
    if h : u = v then isTrue (by rw [h])
    else isFalse (fun c => h (Except.error.inj c))
  | .ok _, .error _ => isFalse (fun c => Except.noConfusion c)
  | .error _, .ok _ => isFalse (fun c => Except.noConfusion c)

/-- Transaction map: Python dict from destination path to the ordered list
of moved filenames, modelled as an insertion-ordered association list. -/
abbrev Transactions := List (String × List String)

/-- Lookup in an insertion-ordered association list, returning the value of
the first matching key (Python dict lookup; keys are unique in a dict). -/
def lookupT {β : Type} : List (String × β) → String → Option β
  | [], _ => none
  | (k, v) :: rest, d => if k = d then some v else lookupT rest d

/-- Value of a transaction key, with `[]` for a missing key: this is what
`transactions.get(dest, [])` yields in `add_record`. -/
def lookupD (t : Transactions) (d : String) : List String :=
  (lookupT t d).getD []

/-- Embedding of `add_record` (lines 43-47): fetch the list stored for
`dest` (empty if new), append `media_file`, store it back. On the ordered
association list this updates the existing entry in place or appends a new
entry at the end, exactly as a Python dict does. -/
def add_record (transactions : Transactions) (media_file dest : String) :
    Transactions :=
  match transactions with
  | [] => [(dest, [media_file])]
  | (k, v) :: rest =>
    if k = dest then (k, v ++ [media_file]) :: rest
    else (k, v) :: add_record rest media_file dest

/-- Key order used by `sorted(transactions.items())`: keys are unique in
the dict, so sorting the items is sorting by key under the code-point
lexicographic string order (Python string comparison), here the
lexicographic order on the key's character list. -/
def key_le (a b : String × List String) : Prop := a.1.data ≤ b.1.data

instance : DecidableRel key_le :=
  fun a b => (inferInstance : Decidable (a.1.data ≤ b.1.data))

instance : IsTotal (String × List String) key_le :=
  ⟨fun a b => le_total a.1.data b.1.data⟩

instance : IsTrans (String × List String) key_le :=
  ⟨fun _ _ _ h1 h2 => le_trans h1 h2⟩

/-- Embedding of `pp_transactions` (lines 50-56): the report iterates
`sorted(transactions.items())`, printing each destination followed by its
filenames in list order; the sorted item list fully determines the printed
report, so it is the model of `render()`. -/
def pp_transactions (transactions : Transactions) : Transactions :=
  List.insertionSort key_le transactions

/-- Transaction log built by a sequence of `record(destination, filename)`
calls, i.e. a left fold of `add_record` starting from the empty dict. -/
def build_log (calls : List (String × String)) : Transactions :=
  calls.foldl (fun t c => add_record t c.2 c.1) []

/-- Filenames recorded for destination `d`, in call order. -/
def dest_files (d : String) (calls : List (String × String)) : List String :=
  (calls.filter (fun c => decide (c.1 = d))).map Prod.snd

/-- Decoded image: only the EXIF tag 306 ("DateTime") value is consulted by
the code (`exif.get(306, None)`), `none` when the tag is absent. -/
structure ImageData : Type where
  exif306 : Option String
deriving DecidableEq, Repr

/-- One photo listing entry: `decode` is the outcome of
`Image.open(f'\x7bsource_dir\x7d\x7bpic\x7d')` — `.error e` models an
`IOError` with message `e`. -/
structure PhotoInput : Type where
  name : String
  decode : Except String ImageData
deriving DecidableEq, Repr

/-- One probed video stream: its `codec_type` entry and its `tags` dict
(`none` when the stream dict has no `tags` key; a missing `creation_time`
is a missing key in the `tags` association list). -/
structure ProbeStream : Type where
  codec_type : String
  tags : Option (List (String × String))
deriving DecidableEq, Repr

/-- One video listing entry: `probe` is the outcome of
`ffmpeg.probe(vid_location)` — `.error e` models `ffmpeg.Error` whose
`stderr` text is `e`, `.ok streams` the probed stream list. -/
structure VideoInput : Type where
  name : String
  probe : Except String (List ProbeStream)
deriving DecidableEq, Repr

/-- Observable side effects of the processing loops, in program order:
`log` a printed diagnostic, `ensure_dir` a `create_dir` call, `move` a
`move_media` call, `record` an `add_record` call. -/
inductive Event : Type where
  | log (msg : String)
  | ensure_dir (path : String)
  | move (file : String) (dest : String)
  | record (dest : String) (file : String)
deriving DecidableEq, Repr

/-- Destination computation for one photo inside `img_copy_n_sort` (lines
122-130): read EXIF tag 306; if absent use the default bucket, otherwise
`timestamp.split()` then `time_tokens[0].split(':')` and the first two
tokens are (year, month). An out-of-range index is an uncaught
`IndexError`. -/
def img_date_dir (source_dir : String) (img : ImageData)
    (dir_layout : String) : Except StepErr String :=
  match img.exif306 with
  | none => destination_resolver source_dir none dir_layout
  | some timestamp =>
    match py_split_ws timestamp with
    | [] => .error (.uncaught "IndexError: time_tokens[0]")
    | t0 :: _ =>
      match py_split t0 ':' with
      | d0 :: d1 :: _ => destination_resolver source_dir (some (d0, d1)) dir_layout
      | _ => .error (.uncaught "IndexError: date[1]")

/-- Worker loop of `img_copy_n_sort` (lines 116-134). The Python local
`img_file` is carried as `img_file : Option ImageData`: on an `IOError` the
except block only prints `Invalid Image: ...` and execution falls through,
so `img_file.getexif()` reads the PREVIOUS iteration's image — and raises
an uncaught `UnboundLocalError` when no image was opened yet. The returned
trace lists the side effects performed before completion or abort. -/
def img_loop (source_dir dir_layout : String) (img_file : Option ImageData)
    (transactions : Transactions) :
    List PhotoInput → List Event × Except StepErr Transactions
  | [] => ([], .ok transactions)
  | pic :: rest =>
    let logEv : List Event :=
      match pic.decode with
      | .ok _ => []
      | .error e => [.log ("Invalid Image: " ++ e)]
    let cur : Option ImageData :=
      match pic.decode with
      | .ok img => some img
      | .error _ => img_file
    match cur with
    | none => (logEv, .error (.uncaught "UnboundLocalError: img_file"))
    | some img =>
      match img_date_dir source_dir img dir_layout with
      | .error e => (logEv, .error e)
      | .ok date_dir =>
        let res := img_loop source_dir dir_layout (some img)
          (add_record transactions pic.name date_dir) rest
        (logEv ++ Event.ensure_dir date_dir :: Event.move pic.name date_dir ::
          Event.record date_dir pic.name :: res.1, res.2)

/-- Embedding of `img_copy_n_sort` (lines 110-134): the loop starts with
the local `img_file` unbound. -/
def img_copy_n_sort (jpg_files : List PhotoInput) (source_dir : String)
    (transactions : Transactions) (dir_layout : String) :
    List Event × Except StepErr Transactions :=
  img_loop source_dir dir_layout none transactions jpg_files

/-- Destination computation for one video inside `video_copy_n_sort`
(lines 99-103): the try block reads
`video_stream['tags']['creation_time']` — a missing `tags` or
`creation_time` KEY raises `KeyError`, which the `except IndexError`
clause does NOT catch, so it propagates; only a missing INDEX after
`.split('-')` (fewer than two tokens) is caught and falls back to the
default bucket. A `sys.exit` from `generate_date_dir` also propagates. -/
def video_tag_dest (source_dir : String) (stream : ProbeStream)
    (dir_layout : String) : Except StepErr String :=
  match stream.tags with
  | none => .error (.uncaught "KeyError: tags")
  | some tags =>
    match lookupT tags "creation_time" with
    | none => .error (.uncaught "KeyError: creation_time")
    | some creation_time =>
      match py_split creation_time '-' with
      | t0 :: t1 :: _ => destination_resolver source_dir (some (t0, t1)) dir_layout
      | _ => .ok (source_dir ++ DEFAULT_DEST)

/-- Worker loop of `video_copy_n_sort` (lines 78-107): probe failure exits
with status 1 printing the probe stderr; a stream list with no
`codec_type == 'video'` entry exits with status 1 printing
`No video stream found`; otherwise the destination is computed by
`video_tag_dest` and the file is moved and recorded. -/
def video_loop (source_dir dir_layout : String) (transactions : Transactions) :
    List VideoInput → List Event × Except StepErr Transactions
  | [] => ([], .ok transactions)
  | vid :: rest =>
    match vid.probe with
    | .error e => ([], .error (.exit 1 e))
    | .ok streams =>
      match streams.find? (fun s => decide (s.codec_type = "video")) with
      | none => ([], .error (.exit 1 "No video stream found"))
      | some stream =>
        match video_tag_dest source_dir stream dir_layout with
        | .error e => ([], .error e)
        | .ok date_dir =>
          let res := video_loop source_dir dir_layout
            (add_record transactions vid.name date_dir) rest
          (Event.ensure_dir date_dir :: Event.move vid.name date_dir ::
            Event.record date_dir vid.name :: res.1, res.2)

/-- Embedding of `video_copy_n_sort` (lines 78-107). -/
def video_copy_n_sort (videos : List VideoInput) (source_dir : String)
    (transactions : Transactions) (dir_layout : String) :
    List Event × Except StepErr Transactions :=
  video_loop source_dir dir_layout transactions videos

/-- Outcome of the listing phase of `main` (lines 137-153): either `main`
returns normally after printing a diagnostic, or the process exits with a
status code after printing a message, or processing proceeds with the
classified photo and video lists. -/
inductive MainOutcome : Type where
  | normalReturn (diag : String)
  | exitCode (code : Nat) (diag : String)
  | proceed (imgs : List String) (videos : List String)
deriving DecidableEq, Repr

/-- Embedding of the listing phase of `main` (lines 137-153):
`os.listdir` failure is caught, `Non-Valid Directory: ...` is printed and
`main` RETURNS (so the script then falls off the end and the process exits
with status 0); an empty classification prints `No Media found ...` and
calls `sys.exit(1)`. -/
def main_listing_phase (listing : Except String (List String))
    (cwd source_dir : String) : MainOutcome :=
  match listing with
  | .error e => .normalReturn ("Non-Valid Directory: " ++ e)
  | .ok arr =>
    let media := find_media_in_dir arr
    if media.1.length = 0 ∧ media.2.length = 0 then
      .exitCode 1 ("No Media found in " ++ cwd ++ "/" ++ source_dir ++ "!")
    else
      .proceed media.1 media.2

/-- Process exit status determined by a `MainOutcome`: a normal return
from `main` ends the script with status 0, `sys.exit(c)` with status `c`,
and `proceed` leaves the status to the rest of the run. -/
def mainExitStatus : MainOutcome → Option Nat
  | .normalReturn _ => some 0
  | .exitCode c _ => some c
  | .proceed _ _ => none

/-- Well-formed side-effect trace: a sequence of log lines and complete
blocks `ensure_dir d, move f d, record d f`. Both processing loops only
produce traces of this shape. -/
inductive WfTrace : List Event → Prop where
  | nil : WfTrace []
  | log (s : String) (rest : List Event) :
      WfTrace rest → WfTrace (.log s :: rest)
  | block (d f : String) (rest : List Event) :
      WfTrace rest →
      WfTrace (.ensure_dir d :: .move f d :: .record d f :: rest)

/-- Index into an event trace: `nthEvent tr i` is the `i`-th event of the
trace, `none` past the end (structural recursion, so it evaluates). -/
def nthEvent : List Event → Nat → Option Event
  | [], _ => none
  | e :: _, 0 => some e
  | _ :: rest, i + 1 => nthEvent rest i

theorem generate_date_dir_month (src y m : String) :
    generate_date_dir src y m "month" = .ok (src ++ m) := rfl

theorem generate_date_dir_year (src y m : String) :
    generate_date_dir src y m "year" = .ok (src ++ y) := rfl

theorem generate_date_dir_year_month (src y m : String) :
    generate_date_dir src y m "year_month" = .ok (src ++ y ++ "_" ++ m) := rfl

theorem generate_date_dir_year_slash_month (src y m : String) :
    generate_date_dir src y m "year/month" = .ok (src ++ y ++ "/" ++ m) := rfl

theorem string_append_assoc (a b c : String) : a ++ b ++ c = a ++ (b ++ c) := by
  apply congrArg String.mk
  simp [String.data_append]

/-- C4: with year "2021" and month "08" the destination resolver produces
source/08, source/2021, source/2021_08 and source/2021/08 under the month,
year, year_month and year/month layouts, and in general the year and month
tokens are pasted into the path verbatim, with no padding or validation. -/
theorem resolver_layouts_2021_08 (source : String) :
    destination_resolver (source ++ "/") (some ("2021", "08")) "month"
      = .ok (source ++ "/08")
    ∧ destination_resolver (source ++ "/") (some ("2021", "08")) "year"
      = .ok (source ++ "/2021")
    ∧ destination_resolver (source ++ "/") (some ("2021", "08")) "year_month"
      = .ok (source ++ "/2021_08")
    ∧ destination_resolver (source ++ "/") (some ("2021", "08")) "year/month"
      = .ok (source ++ "/2021/08")
    ∧ ∀ y m : String,
        destination_resolver (source ++ "/") (some (y, m)) "year_month"
          = .ok (source ++ "/" ++ y ++ "_" ++ m) := by
  refine ⟨?_, ?_, ?_, ?_, ?_⟩
  · rw [destination_resolver, generate_date_dir_month, string_append_assoc]
    exact congrArg Except.ok (congrArg (source ++ ·) (by decide))
  · rw [destination_resolver, generate_date_dir_year, string_append_assoc]
    exact congrArg Except.ok (congrArg (source ++ ·) (by decide))
  · rw [destination_resolver, generate_date_dir_year_month,
      string_append_assoc, string_append_assoc, string_append_assoc]
    exact congrArg Except.ok (congrArg (source ++ ·) (by decide))
  · rw [destination_resolver, generate_date_dir_year_slash_month,
      string_append_assoc, string_append_assoc, string_append_assoc]
    exact congrArg Except.ok (congrArg (source ++ ·) (by decide))
  · intro y m
    rw [destination_resolver, generate_date_dir_year_month]

theorem find_media_eq_filters (files : List String) :
    find_media_in_dir files =
      (files.filter (fun f => decide (ext_token f ∈ photo_types)),
       files.filter (fun f => decide (ext_token f ∈ video_types))) := by
  induction files with
  | nil => rfl
  | cons f fs ih =>
    by_cases hp : ext_token f ∈ photo_types
    · have hv : ext_token f ∉ video_types := by
        simp only [photo_types, List.mem_cons, List.not_mem_nil, or_false] at hp
        rcases hp with h | h <;> simp [video_types, h]
      simp [find_media_in_dir, hp, hv, ih, List.filter_cons]
    · by_cases hv : ext_token f ∈ video_types
      · simp [find_media_in_dir, hp, hv, ih, List.filter_cons]
      · simp [find_media_in_dir, hp, hv, ih, List.filter_cons]

/-- C7 counterexample: the filename `jpg`, which contains no `.`, is NOT
excluded from both outputs — the whole name is its own extension token and
it lands in the photo list. -/
theorem classifier_no_dot_counterexample :
    find_media_in_dir ["jpg"] = (["jpg"], []) ∧ '.' ∉ "jpg".data :=
  ⟨rfl, by decide⟩

/-- C7 (amended): the classifier returns exactly the order-preserving
sublists of filenames whose last `.`-separated token is a photo extension
(jpg, png) resp. a video extension (mp4); every other filename is excluded
from both outputs. A filename with no `.` has the whole name as its token,
so it is excluded exactly when the whole name is not itself one of the
recognised extension tokens. -/
theorem classifier_partition (files : List String) :
    find_media_in_dir files =
      (files.filter (fun f => decide (ext_token f ∈ photo_types)),
       files.filter (fun f => decide (ext_token f ∈ video_types))) :=
  find_media_eq_filters files

/-- C10: extension matching is case-sensitive — any filename whose last
`.`-separated token matches a recognised extension only after lowercasing
(so differs from it in letter case) is excluded from both classifier
outputs. -/
theorem classifier_case_sensitive (files : List String) (f : String)
    (h1 : py_lower (ext_token f) ∈ ["jpg", "png", "mp4"])
    (h2 : ext_token f ≠ py_lower (ext_token f)) :
    f ∉ (find_media_in_dir files).1 ∧ f ∉ (find_media_in_dir files).2 := by
  rw [find_media_eq_filters]
  constructor
  · intro hf
    have hmem := (List.mem_filter.mp hf).2
    simp only [photo_types, decide_eq_true_eq, List.mem_cons,
      List.not_mem_nil, or_false] at hmem
    rcases hmem with h | h <;> rw [h] at h2 <;> exact h2 (by decide)
  · intro hf
    have hmem := (List.mem_filter.mp hf).2
    simp only [video_types, decide_eq_true_eq, List.mem_cons,
      List.not_mem_nil, or_false] at hmem
    rw [hmem] at h2
    exact h2 (by decide)

theorem classifier_case_sensitive_witness :
    "photo.JPG" ∉ (find_media_in_dir ["photo.JPG", "clip.mp4"]).1 ∧
    "photo.JPG" ∉ (find_media_in_dir ["photo.JPG", "clip.mp4"]).2 :=
  classifier_case_sensitive ["photo.JPG", "clip.mp4"] "photo.JPG"
    (by decide) (by decide)

/-- C5: an Absent capture date resolves to the default bucket
`Timestamp_Unavailable` under the source directory, whatever the layout
mode: at the shared resolver, on the photo path (EXIF tag 306 absent), and
on the video path (a `creation_time` value with no `-`, whose IndexError
is caught). -/
theorem absent_capture_default_bucket (source dir_layout : String) :
    destination_resolver (source ++ "/") none dir_layout
      = .ok (source ++ "/Timestamp_Unavailable")
    ∧ img_date_dir (source ++ "/") ⟨none⟩ dir_layout
      = .ok (source ++ "/Timestamp_Unavailable")
    ∧ video_tag_dest (source ++ "/")
        ⟨"video", some [("creation_time", "2020")]⟩ dir_layout
      = .ok (source ++ "/Timestamp_Unavailable") := by
  have h : (source ++ "/") ++ DEFAULT_DEST = source ++ "/Timestamp_Unavailable" := by
    rw [string_append_assoc]
    exact congrArg (source ++ ·) (by decide)
  refine ⟨?_, ?_, ?_⟩
  · show Except.ok ((source ++ "/") ++ DEFAULT_DEST)
      = Except.ok (source ++ "/Timestamp_Unavailable")
    exact congrArg Except.ok h
  · show Except.ok ((source ++ "/") ++ DEFAULT_DEST)
      = Except.ok (source ++ "/Timestamp_Unavailable")
    exact congrArg Except.ok h
  · show Except.ok ((source ++ "/") ++ DEFAULT_DEST)
      = Except.ok (source ++ "/Timestamp_Unavailable")
    exact congrArg Except.ok h

/-- C6 counterexample: with an Absent capture date and the unrecognised
layout mode `bogus`, the resolver does NOT fail fatally — the layout is
never consulted and the default bucket is returned. -/
theorem resolver_absent_invalid_layout_not_fatal :
    destination_resolver "d/" none "bogus" = .ok "d/Timestamp_Unavailable"
    ∧ destination_resolver "d/" none "bogus"
      ≠ .error (.exit 1 "Invalid dir_layout provided") := by
  refine ⟨rfl, ?_⟩
  intro h
  rw [show destination_resolver "d/" none "bogus"
      = Except.ok "d/Timestamp_Unavailable" from rfl] at h
  exact Except.noConfusion h

/-- C6 (amended): for every PRESENT capture date, an unrecognised layout
mode fails fatally — the resolver prints `Invalid dir_layout provided` and
exits with status 1; when the capture date is Absent the layout mode is
never consulted and the default bucket path is returned without failure. -/
theorem resolver_invalid_layout (src y m dir_layout : String)
    (h : dir_layout ∉ ["month", "year", "year_month", "year/month"]) :
    destination_resolver src (some (y, m)) dir_layout
      = .error (.exit 1 "Invalid dir_layout provided")
    ∧ ∀ src2 : String,
        destination_resolver src2 none dir_layout = .ok (src2 ++ DEFAULT_DEST) := by
  simp only [List.mem_cons, List.not_mem_nil, or_false, not_or] at h
  obtain ⟨h1, h2, h3, h4⟩ := h
  refine ⟨?_, fun src2 => rfl⟩
  simp [destination_resolver, generate_date_dir, h1, h2, h3, h4]

theorem resolver_invalid_layout_witness :
    destination_resolver "d/" (some ("2021", "08")) "bogus"
      = .error (.exit 1 "Invalid dir_layout provided") :=
  (resolver_invalid_layout "d/" "2021" "08" "bogus" (by decide)).1

/-- C3 counterexample: when the directory listing fails, `main` prints the
diagnostic and RETURNS, so the script ends with exit status 0 — it does
not exit nonzero. -/
theorem unreadable_dir_exit_status_zero :
    main_listing_phase (.error "Permission denied") "/home" "pics/"
      = .normalReturn "Non-Valid Directory: Permission denied"
    ∧ mainExitStatus
        (main_listing_phase (.error "Permission denied") "/home" "pics/")
      = some 0 :=
  ⟨rfl, rfl⟩

/-- C3 (amended): when the source directory cannot be read, the program
prints the diagnostic `Non-Valid Directory: ...` and `main` returns
normally, so the process terminates with exit status 0, not a nonzero
status. -/
theorem unreadable_dir_returns_normally (e cwd source_dir : String) :
    main_listing_phase (.error e) cwd source_dir
      = .normalReturn ("Non-Valid Directory: " ++ e)
    ∧ mainExitStatus (main_listing_phase (.error e) cwd source_dir) = some 0 :=
  ⟨rfl, rfl⟩

/-- C1: behaviour of `img_copy_n_sort` on a decode failure. The except
block only prints; there is no `continue`. If the FIRST photo fails to
decode, `img_file` is still unbound and the loop aborts with an uncaught
`UnboundLocalError` — the failure is fatal. If a LATER photo fails, the
stale previous image's EXIF is consulted and the undecodable file IS moved
and recorded (here `b.jpg` is filed under `a.jpg`'s date): its move and
record steps are NOT skipped. -/
theorem img_decode_failure_divergence :
    img_copy_n_sort [⟨"a.jpg", .error "io"⟩] "d/" [] "month"
      = ([.log "Invalid Image: io"],
         .error (.uncaught "UnboundLocalError: img_file"))
    ∧ img_copy_n_sort [⟨"a.jpg", .ok ⟨some "2021:08:15 10:00:00"⟩⟩,
        ⟨"b.jpg", .error "io"⟩] "d/" [] "month"
      = ([.ensure_dir "d/08", .move "a.jpg" "d/08", .record "d/08" "a.jpg",
          .log "Invalid Image: io",
          .ensure_dir "d/08", .move "b.jpg" "d/08", .record "d/08" "b.jpg"],
         .ok [("d/08", ["a.jpg", "b.jpg"])]) :=
  ⟨rfl, by decide⟩

/-- C2: behaviour of the video path when the `creation_time` tag is
entirely missing. `except IndexError` does not catch the `KeyError` raised
by `video_stream['tags']['creation_time']`, so the error propagates and
the run aborts with no move and no record — the file is not routed to the
default bucket. -/
theorem video_missing_tag_keyerror :
    video_tag_dest "d/" ⟨"video", some []⟩ "month"
      = .error (.uncaught "KeyError: creation_time")
    ∧ video_tag_dest "d/" ⟨"video", none⟩ "month"
      = .error (.uncaught "KeyError: tags")
    ∧ video_copy_n_sort [⟨"v.mp4", .ok [⟨"video", some []⟩]⟩] "d/" [] "month"
      = ([], .error (.uncaught "KeyError: creation_time")) :=
  ⟨rfl, rfl, rfl⟩

theorem wfTrace_append {xs ys : List Event} (hx : WfTrace xs)
    (hy : WfTrace ys) : WfTrace (xs ++ ys) := by
  induction hx with
  | nil => simpa using hy
  | log s rest _ ih => exact .log s _ ih
  | block d f rest _ ih => exact .block d f _ ih

theorem wfTrace_img (pics : List PhotoInput) :
    ∀ (src layout : String) (prev : Option ImageData) (t : Transactions),
      WfTrace (img_loop src layout prev t pics).1 := by
  induction pics with
  | nil => intro src layout prev t; exact .nil
  | cons pic rest ih =>
    intro src layout prev t
    cases hd : pic.decode with
    | ok img =>
      simp only [img_loop, hd]
      cases hdd : img_date_dir src img layout with
      | error e => exact .nil
      | ok date_dir =>
        exact .block date_dir pic.name _ (ih src layout (some img) _)
    | error e =>
      cases prev with
      | none =>
        simp only [img_loop, hd]
        exact .log _ _ .nil
      | some img =>
        simp only [img_loop, hd]
        cases hdd : img_date_dir src img layout with
        | error err => exact .log _ _ .nil
        | ok date_dir =>
          exact .log _ _
            (.block date_dir pic.name _ (ih src layout (some img) _))

theorem wfTrace_video (vids : List VideoInput) :
    ∀ (src layout : String) (t : Transactions),
      WfTrace (video_loop src layout t vids).1 := by
  induction vids with
  | nil => intro src layout t; exact .nil
  | cons vid rest ih =>
    intro src layout t
    cases hp : vid.probe with
    | error e => simp only [video_loop, hp]; exact .nil
    | ok streams =>
      cases hf : streams.find? (fun s => decide (s.codec_type = "video")) with
      | none => simp only [video_loop, hp, hf]; exact .nil
      | some stream =>
        cases hdd : video_tag_dest src stream layout with
        | error e => simp only [video_loop, hp, hf, hdd]; exact .nil
        | ok date_dir =>
          simp only [video_loop, hp, hf, hdd]
          exact .block date_dir vid.name _ (ih src layout _)

theorem wfTrace_move_pos {tr : List Event} (h : WfTrace tr) :
    ∀ (i : Nat) (f d : String), nthEvent tr i = some (.move f d) →
      ∃ k, i = k + 1 ∧ nthEvent tr k = some (.ensure_dir d)
        ∧ nthEvent tr (k + 2) = some (.record d f) := by
  induction h with
  | nil =>
    intro i f d hM
    have hM2 : (none : Option Event) = some (.move f d) := hM
    exact Option.noConfusion hM2
  | log s rest _ ih =>
    intro i f d hM
    match i with
    | 0 =>
      have hM2 : some (Event.log s) = some (.move f d) := hM
      exact Event.noConfusion (Option.some.inj hM2)
    | j + 1 =>
      obtain ⟨k, hk, he, hr⟩ := ih j f d hM
      exact ⟨k + 1, by omega, he, hr⟩
  | block d0 f0 rest _ ih =>
    intro i f d hM
    match i with
    | 0 =>
      have hM2 : some (Event.ensure_dir d0) = some (.move f d) := hM
      exact Event.noConfusion (Option.some.inj hM2)
    | 1 =>
      have hM2 : some (Event.move f0 d0) = some (.move f d) := hM
      have hMove : Event.move f0 d0 = Event.move f d := Option.some.inj hM2
      have hf : f0 = f := by injection hMove
      have hdq : d0 = d := by injection hMove
      subst hf; subst hdq
      exact ⟨0, rfl, rfl, rfl⟩
    | 2 =>
      have hM2 : some (Event.record d0 f0) = some (.move f d) := hM
      exact Event.noConfusion (Option.some.inj hM2)
    | j + 3 =>
      obtain ⟨k, hk, he, hr⟩ := ih j f d hM
      exact ⟨k + 3, by omega, he, hr⟩

/-- C9: in both processing loops every `move` event is immediately
preceded by the idempotent `ensure_dir` of the same destination and
immediately followed by the `record` of the same destination and file, so
no move ever targets a directory that has not first been created; and
`create_dir` is idempotent on the filesystem model. -/
theorem process_step_order :
    (∀ (pics : List PhotoInput) (src layout : String)
        (prev : Option ImageData) (t : Transactions) (i : Nat) (f d : String),
      nthEvent (img_loop src layout prev t pics).1 i = some (.move f d) →
        ∃ k, i = k + 1
          ∧ nthEvent (img_loop src layout prev t pics).1 k
            = some (.ensure_dir d)
          ∧ nthEvent (img_loop src layout prev t pics).1 (k + 2)
            = some (.record d f))
    ∧ (∀ (vids : List VideoInput) (src layout : String)
        (t : Transactions) (i : Nat) (f d : String),
      nthEvent (video_loop src layout t vids).1 i = some (.move f d) →
        ∃ k, i = k + 1
          ∧ nthEvent (video_loop src layout t vids).1 k
            = some (.ensure_dir d)
          ∧ nthEvent (video_loop src layout t vids).1 (k + 2)
            = some (.record d f))
    ∧ (∀ (fs : List String) (p : String),
        create_dir (create_dir fs p) p = create_dir fs p) := by
  refine ⟨?_, ?_, ?_⟩
  · intro pics src layout prev t i f d hM
    exact wfTrace_move_pos (wfTrace_img pics src layout prev t) i f d hM
  · intro vids src layout t i f d hM
    exact wfTrace_move_pos (wfTrace_video vids src layout t) i f d hM
  · intro fs p
    by_cases hp : p ∈ fs
    · simp [create_dir, hp]
    · simp [create_dir, hp]

theorem process_step_order_witness :
    ∃ k, (1 : Nat) = k + 1
      ∧ nthEvent (img_loop "d/" "month" none []
          [⟨"a.jpg", .ok ⟨some "2021:08:15 10:00:00"⟩⟩]).1 k
        = some (.ensure_dir "d/08")
      ∧ nthEvent (img_loop "d/" "month" none []
          [⟨"a.jpg", .ok ⟨some "2021:08:15 10:00:00"⟩⟩]).1 (k + 2)
        = some (.record "d/08" "a.jpg") :=
  process_step_order.1 [⟨"a.jpg", .ok ⟨some "2021:08:15 10:00:00"⟩⟩]
    "d/" "month" none [] 1 "a.jpg" "d/08" (by decide)

theorem string_data_inj {a b : String} (h : a.data = b.data) : a = b := by
  cases a
  cases b
  exact congrArg String.mk h

theorem lookupT_add_record (t : Transactions) (f d d' : String) :
    lookupT (add_record t f d) d' =
      if d' = d then some (lookupD t d ++ [f]) else lookupT t d' := by
  induction t with
  | nil =>
    by_cases h : d' = d
    · subst h
      simp [add_record, lookupT, lookupD]
    · simp [add_record, lookupT, lookupD, h, Ne.symm h]
  | cons kv rest ih =>
    obtain ⟨k, v⟩ := kv
    by_cases hk : k = d
    · subst hk
      by_cases h : k = d'
      · subst h
        simp [add_record, lookupT, lookupD]
      · simp [add_record, lookupT, lookupD, h, Ne.symm h]
    · by_cases h : k = d'
      · subst h
        have hd : ¬ k = d := hk
        simp [add_record, lookupT, lookupD, hd, Ne.symm hd]
      · simp [add_record, lookupT, lookupD, hk, h, ih]

theorem lookupD_add_record (t : Transactions) (f d d' : String) :
    lookupD (add_record t f d) d' =
      if d' = d then lookupD t d' ++ [f] else lookupD t d' := by
  rw [lookupD, lookupT_add_record]
  by_cases h : d' = d
  · subst h
    simp
  · simp [h, lookupD]

theorem keys_add_record (t : Transactions) (f d : String) :
    (add_record t f d).map Prod.fst =
      if d ∈ t.map Prod.fst then t.map Prod.fst
      else t.map Prod.fst ++ [d] := by
  induction t with
  | nil => simp [add_record]
  | cons kv rest ih =>
    obtain ⟨k, v⟩ := kv
    by_cases hk : k = d
    · subst hk
      simp [add_record]
    · simp only [add_record, if_neg hk, List.map_cons, List.mem_cons, ih]
      have : ¬ d = k := Ne.symm hk
      by_cases hm : d ∈ rest.map Prod.fst <;> simp [hm, this]

theorem keys_nodup_add_record (t : Transactions) (f d : String)
    (h : (t.map Prod.fst).Nodup) :
    ((add_record t f d).map Prod.fst).Nodup := by
  rw [keys_add_record]
  by_cases hm : d ∈ t.map Prod.fst
  · simpa [hm] using h
  · simp [hm, List.nodup_append, h]

theorem lookupD_build_fold (calls : List (String × String)) :
    ∀ (t : Transactions) (d : String),
      lookupD (calls.foldl (fun t c => add_record t c.2 c.1) t) d
        = lookupD t d ++ dest_files d calls := by
  induction calls with
  | nil => intro t d; simp [dest_files]
  | cons c cs ih =>
    intro t d
    rw [List.foldl_cons, ih, lookupD_add_record]
    by_cases h : d = c.1
    · simp [dest_files, List.filter_cons, h, Ne.symm, List.append_assoc]
    · have h2 : ¬ c.1 = d := Ne.symm h
      simp [dest_files, List.filter_cons, h, h2]

theorem keys_nodup_build (calls : List (String × String)) :
    ((build_log calls).map Prod.fst).Nodup := by
  have main : ∀ (t : Transactions), (t.map Prod.fst).Nodup →
      ((calls.foldl (fun t c => add_record t c.2 c.1) t).map Prod.fst).Nodup := by
    induction calls with
    | nil => intro t h; simpa using h
    | cons c cs ih =>
      intro t h
      rw [List.foldl_cons]
      exact ih _ (keys_nodup_add_record _ _ _ h)
  simpa [build_log] using main [] (by simp)

theorem lookupT_eq_some_of_mem {t : Transactions} {d : String}
    {fs : List String} (h : (d, fs) ∈ t)
    (hnd : (t.map Prod.fst).Nodup) : lookupT t d = some fs := by
  induction t with
  | nil => simp at h
  | cons kv rest ih =>
    obtain ⟨k, v⟩ := kv
    rcases List.mem_cons.mp h with heq | hmem
    · obtain ⟨hk, hv⟩ := Prod.mk.injEq d fs k v ▸ heq
      subst hk
      subst hv
      simp [lookupT]
    · have hk : ¬ k = d := by
        intro hkd
        subst hkd
        have hmk : k ∈ rest.map Prod.fst :=
          List.mem_map.mpr ⟨(k, fs), hmem, rfl⟩
        exact (List.nodup_cons.mp hnd).1 hmk
      simp only [lookupT, if_neg hk]
      exact ih hmem (List.nodup_cons.mp hnd).2

theorem mem_of_lookupT_eq_some {β : Type} {t : List (String × β)}
    {d : String} {v : β} (h : lookupT t d = some v) : (d, v) ∈ t := by
  induction t with
  | nil => simp [lookupT] at h
  | cons kv rest ih =>
    obtain ⟨k, v'⟩ := kv
    by_cases hk : k = d
    · subst hk
      simp only [lookupT, if_pos rfl] at h
      simp [Option.some.inj h]
    · simp only [lookupT, if_neg hk] at h
      exact List.mem_cons_of_mem _ (ih h)

/-- C8: the rendered report of a transaction log built by any sequence of
`record(destination, filename)` calls lists the destination keys in strict
lexicographic order; each destination carries exactly the filenames of the
record calls made for it, in call order; and every recorded destination
appears in the report. -/
theorem render_sorted_and_ordered (calls : List (String × String)) :
    List.Pairwise (fun a b : String => a.data < b.data)
      ((pp_transactions (build_log calls)).map Prod.fst)
    ∧ (∀ (d : String) (fs : List String),
        (d, fs) ∈ pp_transactions (build_log calls) → fs = dest_files d calls)
    ∧ (∀ c ∈ calls, ∃ fs, (c.1, fs) ∈ pp_transactions (build_log calls)) := by
  have hperm : List.Perm (pp_transactions (build_log calls)) (build_log calls) :=
    List.perm_insertionSort key_le _
  have hnd : ((build_log calls).map Prod.fst).Nodup := keys_nodup_build calls
  have hndpp : ((pp_transactions (build_log calls)).map Prod.fst).Nodup :=
    ((hperm.map Prod.fst).nodup_iff).mpr hnd
  have hlook : ∀ d, lookupD (build_log calls) d = dest_files d calls := by
    intro d
    have hfold := lookupD_build_fold calls [] d
    simpa [build_log, lookupD, lookupT] using hfold
  refine ⟨?_, ?_, ?_⟩
  · have hs : List.Sorted key_le (pp_transactions (build_log calls)) :=
      List.sorted_insertionSort key_le _
    have hle : List.Pairwise (fun a b : String => a.data ≤ b.data)
        ((pp_transactions (build_log calls)).map Prod.fst) :=
      hs.map Prod.fst (fun _ _ h => h)
    refine (hle.and hndpp).imp ?_
    intro a b hab
    exact lt_of_le_of_ne hab.1 (fun hd => hab.2 (string_data_inj hd))
  · intro d fs hmem
    have hmem2 : (d, fs) ∈ build_log calls := hperm.mem_iff.mp hmem
    have hsome := lookupT_eq_some_of_mem hmem2 hnd
    have hfs : lookupD (build_log calls) d = fs := by
      simp [lookupD, hsome]
    rw [← hlook d, hfs]
  · intro c hc
    have hne : dest_files c.1 calls ≠ [] := by
      have hcf : c ∈ calls.filter (fun x => decide (x.1 = c.1)) :=
        List.mem_filter.mpr ⟨hc, by simp⟩
      intro hemp
      rw [dest_files, List.map_eq_nil_iff] at hemp
      rw [hemp] at hcf
      simp at hcf
    cases hl : lookupT (build_log calls) c.1 with
    | none =>
      have : dest_files c.1 calls = [] := by
        rw [← hlook c.1]
        simp [lookupD, hl]
      exact absurd this hne
    | some fs =>
      exact ⟨fs, hperm.mem_iff.mpr (mem_of_lookupT_eq_some hl)⟩

theorem render_sorted_and_ordered_witness :
    ["1", "3"] = dest_files "b" [("b", "1"), ("a", "2"), ("b", "3")] :=
  (render_sorted_and_ordered [("b", "1"), ("a", "2"), ("b", "3")]).2.1
    "b" ["1", "3"] (by decide)
